import Mathlib

/-!
Verification of the ADARP segment-extraction engine (`data_proc_adarp.py`).

A parsed sensor file is modelled as a `List ℚ` whose first two entries are
the header rows (row 0: start epoch time, row 1: sampling rate in Hz) and
whose remaining entries are the scalar samples, exactly the layout of the
numpy array the source obtains from `np.genfromtxt` for the scalar
modalities (EDA, HR, TEMP, BVP; the three-axis ACC case differs only in
the per-row scalar-unwrapping `try` blocks, which are the identity for
scalar rows and are therefore not modelled separately).

Python's `int(x)` cast (truncation toward zero) is `pyInt`, Python slicing
`l[a:b]` with its negative-index and clamping semantics is `pySlice`, and
Python exceptions are the `PyErr` codes of `Except` results.  Timestamps
and sampling rates are exact rationals; the source computes with floats,
whose rounding is outside the scope of these claims.
-/

/-- Python exception outcomes relevant to this program. -/
inductive PyErr where
  | indexError
  | valueError
  | nameError
deriving DecidableEq

/-- Python's `int(x)` cast of a real number: truncation toward zero. -/
def pyInt (q : ℚ) : ℤ :=
  if 0 ≤ q then ⌊q⌋ else ⌈q⌉

/-- Normalize one endpoint of a Python slice of a list of length `len`:
a negative index counts from the end (clamped below at 0), a nonnegative
one is clamped above at `len`. -/
def pySliceIdx (len : ℕ) (i : ℤ) : ℕ :=
  if i < 0 then ((len : ℤ) + i).toNat else min i.toNat len

/-- Python slicing `l[a:b]` (step 1). -/
def pySlice (l : List ℚ) (a b : ℤ) : List ℚ :=
  (l.take (pySliceIdx l.length b)).drop (pySliceIdx l.length a)

/-- Row 0 of a parsed sensor file: the recording's start epoch time
(`start_time = data[0]` in the source; only meaningful when the file has
its two header rows, which every use below guards). -/
def startTimeOf (data : List ℚ) : ℚ :=
  data.getD 0 0

/-- Row 1 of a parsed sensor file: the sampling rate in Hz
(`sampling_freq = data[1]` in the source). -/
def samplingFreqOf (data : List ℚ) : ℚ :=
  data.getD 1 0

/-- The payload of a parsed sensor file: everything after the two header
rows (`sensor_data = data[2:]` in the source). -/
def payloadOf (data : List ℚ) : List ℚ :=
  data.drop 2

/-- The derived end time of a series, as `extract_segments_around_tags`
computes it: `end_time = start_time + (data_length / sampling_freq)` with
`data_length = len(data[2:])`. -/
def seriesEndTime (data : List ℚ) : ℚ :=
  startTimeOf data + (payloadOf data).length / samplingFreqOf data

/-- The half-window sample count
`n_obs = int((segment_size // 2) * sampling_freq)`: Python floor-division
of the duration by 2 first, then multiplication by the rate, then a
truncating cast. -/
def n_obs (segment_size : ℤ) (r : ℚ) : ℤ :=
  pyInt ((Int.fdiv segment_size 2 : ℤ) * r)

/-- The sample index `extract_segments_around_tags` centers a window on:
`difference = int(timestamp - start_time); position = int(difference *
sampling_freq)` — the elapsed time is truncated to whole seconds before
being scaled by the rate. -/
def tagCenterIndex (s r t : ℚ) : ℤ :=
  pyInt ((pyInt (t - s) : ℤ) * r)

/-- Modelled from the spec (§4.3 AlignmentIndexer), for comparison with
`tagCenterIndex`: `index_for(series, timestamp)` computed as
`floor((timestamp - series.start_time) * series.sampling_rate)`. -/
def index_for_spec (s r t : ℚ) : ℤ :=
  ⌊(t - s) * r⌋

/-- The clamped window bounds of `extract_segments_around_tags` for one
in-range tag: `from_ = position - n_obs`, `to_ = position + n_obs`, then
`if from_ < 0: from_ = 0` and `if to_ > data_length: to_ = data_length`. -/
def tagWindow (s r : ℚ) (segment_size : ℤ) (L : ℕ) (t : ℚ) : ℤ × ℤ :=
  let n := n_obs segment_size r
  let position := tagCenterIndex s r t
  let from0 := position - n
  let to0 := position + n
  (if from0 < 0 then 0 else from0, if (L : ℤ) < to0 then (L : ℤ) else to0)

/-- The tag loop of `extract_segments_around_tags`: for each tag in input
order, if `start_time <= timestamp <= end_time` the clamped window's slice
is appended (unconditionally — even when it is empty), otherwise the tag
is skipped. -/
def tagLoop (s r endT : ℚ) (segment_size : ℤ) (payload : List ℚ) :
    List ℚ → List (List ℚ)
  | [] => []
  | t :: rest =>
    if s ≤ t ∧ t ≤ endT then
      pySlice payload (tagWindow s r segment_size payload.length t).1
          (tagWindow s r segment_size payload.length t).2 ::
        tagLoop s r endT segment_size payload rest
    else tagLoop s r endT segment_size payload rest

/-- `extract_segments_around_tags(data, tags, segment_size)`.  The source
reads `data[0]` and `data[1]` before anything else, so a series with fewer
than two rows (in particular the empty series a failed file read yields)
raises an IndexError. -/
def extract_segments_around_tags (data tags : List ℚ) (segment_size : ℤ) :
    Except PyErr (List (List ℚ)) :=
  if data.length < 2 then .error .indexError
  else
    .ok (tagLoop (startTimeOf data) (samplingFreqOf data)
      (seriesEndTime data) segment_size (payloadOf data) tags)

/-- `get_sensor_data(file_path)`: the result of `np.genfromtxt` is
returned as-is; any exception while reading is caught, a warning is
printed, and the initial empty list is returned.  The argument abstracts
the parse outcome of the file at `file_path`. -/
def get_sensor_data (parsed : Except PyErr (List ℚ)) : List ℚ :=
  match parsed with
  | .ok d => d
  | .error _ => []

/-- Column 0 of one tag-file row, already split into cells; a cell is
`some v` when `float(...)` succeeds on it and `none` when it is
malformed. -/
def col0 (row : List (Option ℚ)) : Option ℚ :=
  match row with
  | some v :: _ => some v
  | _ => none

/-- Reading column 0 of one tag-file row as the source does
(`unix_time = float(row[0])`): a row with no cells raises IndexError, an
unparsable cell raises ValueError. -/
def readCol0 (row : List (Option ℚ)) : Except PyErr ℚ :=
  match row with
  | [] => .error .indexError
  | none :: _ => .error .valueError
  | some v :: _ => .ok v

/-- The row loop of `get_tag_timestamps`: each row's column 0 is parsed
and appended in file order; the first failing row's exception propagates
(discarding the partial list, as the propagating exception does in the
source). -/
def readTagRows : List (List (Option ℚ)) → Except PyErr (List ℚ)
  | [] => .ok []
  | row :: rest =>
    match readCol0 row with
    | .error e => .error e
    | .ok v =>
      match readTagRows rest with
      | .error e => .error e
      | .ok vs => .ok (v :: vs)

/-- `get_tag_timestamps(tag_file)`: if the file has fewer than 2 lines the
empty list is returned; otherwise the header line is skipped and column 0
of every remaining row is parsed as a float, the first malformed row
raising an error that propagates.  The file is modelled as its list of
rows. -/
def get_tag_timestamps (lines : List (List (Option ℚ))) :
    Except PyErr (List ℚ) :=
  if lines.length < 2 then .ok []
  else readTagRows (lines.drop 1)

/-- The boundary list `get_segments_between_timestamps` builds:
`tags = [start_time]`, then `tags.extend(tag_timestamps)`, then
`tags.append(tags[0] + len(data) / sampling_freq)` — note `len(data)` is
the raw length including the two header rows. -/
def boundariesOf (s r : ℚ) (rawLen : ℕ) (tag_timestamps : List ℚ) : List ℚ :=
  s :: (tag_timestamps ++ [s + (rawLen : ℚ) / r])

/-- The consecutive pairs `(tags[i], tags[i+1])` the boundary loop visits. -/
def consecPairs (l : List ℚ) : List (ℚ × ℚ) :=
  l.zip l.tail

/-- One iteration of the boundary loop of
`get_segments_between_timestamps`:
`here_ = int((start_tag - start_time) * sampling_freq + n_observation)`,
`there_ = int((end_tag - start_time) * sampling_freq - n_observation)`,
and the slice `data[here_:there_]` is kept only if `there_ - here_ > 0`. -/
def emitPair (s r : ℚ) (n : ℤ) (payload : List ℚ) (ab : ℚ × ℚ) :
    Option (List ℚ) :=
  let here0 := pyInt ((ab.1 - s) * r + (n : ℚ))
  let there0 := pyInt ((ab.2 - s) * r - (n : ℚ))
  if 0 < there0 - here0 then some (pySlice payload here0 there0) else none

/-- `get_segments_between_timestamps(data, tag_timestamps, segment_size,
segments)`: an empty series returns the accumulator unchanged; an empty
tag list appends the whole payload `data[2:]` to the accumulator; and
otherwise the guarded slices between consecutive boundaries are appended.
A one-row series with a non-empty tag list raises IndexError at
`data[1]`. -/
def get_segments_between_timestamps (data tag_timestamps : List ℚ)
    (segment_size : ℤ) (segments : List (List ℚ)) :
    Except PyErr (List (List ℚ)) :=
  if data.length = 0 then .ok segments
  else if tag_timestamps.length = 0 then .ok (segments ++ [payloadOf data])
  else if data.length < 2 then .error .indexError
  else
    .ok (segments ++
      (consecPairs (boundariesOf (startTimeOf data) (samplingFreqOf data)
          data.length tag_timestamps)).filterMap
        (emitPair (startTimeOf data) (samplingFreqOf data)
          (n_obs segment_size (samplingFreqOf data)) (payloadOf data)))

/-- The subfolder loop of `extract_segments_for_verified_tags` (source
lines 316–356): for each subfolder's parsed `tags.csv` timestamps, empty
lists are skipped; otherwise the f-string
`print(f"Searching for {tag} in {tag_timestamps}")` evaluates the name
`tag`, which raises NameError unless a previous iteration's
`for tag in tag_events` loop already bound it (the Boolean tracks that
binding; `tag_events` is non-empty here, so the loop body always binds
`tag` once reached).  The per-sensor extraction calls after the print are
not modelled: the claim settled against this model concerns only the
name resolution, which precedes them. -/
def verifiedSubLoop (tagBound : Bool) (tag_events : List ℚ) :
    List (List ℚ) → Except PyErr Bool
  | [] => .ok tagBound
  | sub :: rest =>
    if sub.length = 0 then verifiedSubLoop tagBound tag_events rest
    else if tagBound then verifiedSubLoop true tag_events rest
    else .error .nameError

/-- The participant loop of `extract_segments_for_verified_tags` (source
lines 298–356): participants whose verified-tags file parses to an empty
list are skipped; otherwise the subfolder loop runs, propagating its
error and carrying the binding state of `tag` across participants. -/
def verifiedPartLoop (tagBound : Bool) :
    List (List ℚ × List (List ℚ)) → Except PyErr Bool
  | [] => .ok tagBound
  | (events, subs) :: rest =>
    if events.length = 0 then verifiedPartLoop tagBound rest
    else
      match verifiedSubLoop tagBound events subs with
      | .error e => .error e
      | .ok b => verifiedPartLoop b rest

/-- `extract_segments_for_verified_tags(...)`, modelled at the level of
its traversal: the input lists, per verified-tags file found in
`tag_timestamps_folder`, the parsed tag events together with the parsed
`tags.csv` timestamp lists of the participant's subfolders.  The result
records whether the run completed (with the final binding state of the
name `tag`) or raised. -/
def extract_segments_for_verified_tags
    (input : List (List ℚ × List (List ℚ))) : Except PyErr Bool :=
  verifiedPartLoop false input

/-! ## Lemmas about the Python primitives -/

theorem pyInt_of_nonneg {q : ℚ} (h : 0 ≤ q) : pyInt q = ⌊q⌋ :=
  if_pos h

theorem pyInt_mono {x y : ℚ} (h : x ≤ y) : pyInt x ≤ pyInt y := by
  unfold pyInt
  by_cases hx : 0 ≤ x
  · rw [if_pos hx, if_pos (le_trans hx h)]
    exact Int.floor_mono h
  · rw [if_neg hx]
    by_cases hy : 0 ≤ y
    · rw [if_pos hy]
      exact le_trans
        (Int.ceil_le.mpr (by exact_mod_cast le_of_lt (lt_of_not_le hx)))
        (Int.floor_nonneg.mpr hy)
    · rw [if_neg hy]
      exact Int.ceil_mono h

theorem pyInt_nonneg {q : ℚ} (h : 0 ≤ q) : 0 ≤ pyInt q := by
  rw [pyInt_of_nonneg h]
  exact Int.floor_nonneg.mpr h

/-! ## C1: the index used to center a tag window -/

/-- C1 (amended): for `start_time ≤ t` and a nonnegative sampling rate,
the sample index used to center a tag's window equals
`floor(floor(t - start_time) * sampling_rate)` — the fractional time
offset is truncated to whole seconds *before* the multiplication by the
sampling rate, not after it as the spec's `index_for` contract states. -/
theorem c1_center_index_two_stage (s r t : ℚ) (hst : s ≤ t) (hr : 0 ≤ r) :
    tagCenterIndex s r t = ⌊((⌊t - s⌋ : ℤ) : ℚ) * r⌋ := by
  unfold tagCenterIndex
  rw [pyInt_of_nonneg (by linarith : (0:ℚ) ≤ t - s)]
  exact pyInt_of_nonneg
    (mul_nonneg (Int.cast_nonneg.mpr (Int.floor_nonneg.mpr (by linarith))) hr)

/-- Witness for C1's amended theorem at `s = 0`, `r = 4`, `t = 9/10`. -/
theorem c1_center_index_two_stage_witness :
    tagCenterIndex 0 4 (9/10) = ⌊((⌊(9/10 : ℚ) - 0⌋ : ℤ) : ℚ) * 4⌋ :=
  c1_center_index_two_stage 0 4 (9/10) (by norm_num) (by norm_num)

/-- C1 counterexample: for the series with `start_time = 0`,
`sampling_rate = 4` and 8 samples, the in-range tag `t = 0.9` is centered
at index `int(int(0.9) * 4) = 0`, not at
`floor((0.9 - 0) * 4) = 3` as the claim states; the emitted segment is
the first four samples, a window centered at index 0. -/
theorem c1_counterexample :
    tagCenterIndex 0 4 (9/10) ≠ index_for_spec 0 4 (9/10) ∧
    extract_segments_around_tags [0, 4, 10, 20, 30, 40, 50, 60, 70, 80]
        [9/10] 2 = .ok [[10, 20, 30, 40]] := by
  constructor
  · norm_num [tagCenterIndex, index_for_spec, pyInt]
  · norm_num [extract_segments_around_tags, tagLoop, tagWindow,
      tagCenterIndex, n_obs, pyInt, pySlice, pySliceIdx, startTimeOf,
      samplingFreqOf, payloadOf, seriesEndTime,
      (by decide : Int.fdiv 2 2 = 1)]
    simp

/-! ## C2: the tag-centered window and its clamping -/

/-- C2 (amended): with a nonnegative segment length and sampling rate, the
tag-centered segmenter uses the half-window count
`n = floor((segment_length_seconds // 2) * sampling_rate)` (floor-division
first, truncation after the multiplication), extracts the window
`[center - n, center + n)` clamped to `[0, len(samples))` at both ends, and
a tag at exactly `start_time` has left edge 0; the right edge is
`min(center + n, len(samples))`, which clamps to `len(samples)` whenever
`center + n` reaches it — but for a tag at exactly `end_time` it can fall
short of `len(samples)`, because the center index truncates the elapsed
seconds before scaling by the rate (see the counterexample). -/
theorem c2_window_clamping (s r t : ℚ) (segment_size : ℤ) (L : ℕ)
    (hsize : 0 ≤ segment_size) (hr : 0 ≤ r) :
    n_obs segment_size r = ⌊((Int.fdiv segment_size 2 : ℤ) : ℚ) * r⌋ ∧
    tagWindow s r segment_size L t =
      (max 0 (tagCenterIndex s r t - n_obs segment_size r),
       min (tagCenterIndex s r t + n_obs segment_size r) (L : ℤ)) ∧
    (tagWindow s r segment_size L s).1 = 0 ∧
    ((L : ℤ) ≤ tagCenterIndex s r t + n_obs segment_size r →
      (tagWindow s r segment_size L t).2 = (L : ℤ)) := by
  have hd : (0:ℚ) ≤ ((Int.fdiv segment_size 2 : ℤ) : ℚ) :=
    Int.cast_nonneg.mpr (Int.fdiv_nonneg hsize (by norm_num))
  have hn0 : 0 ≤ n_obs segment_size r := pyInt_nonneg (mul_nonneg hd hr)
  refine ⟨pyInt_of_nonneg (mul_nonneg hd hr), ?_, ?_, ?_⟩
  · simp only [tagWindow, Prod.mk.injEq]
    constructor
    · rcases lt_or_le (tagCenterIndex s r t - n_obs segment_size r) 0 with h | h
      · rw [if_pos h, eq_comm, max_eq_left (le_of_lt h)]
      · rw [if_neg (not_lt.mpr h), eq_comm, max_eq_right h]
    · rcases lt_or_le ((L : ℤ)) (tagCenterIndex s r t + n_obs segment_size r)
        with h | h
      · rw [if_pos h, eq_comm, min_eq_right (le_of_lt h)]
      · rw [if_neg (not_lt.mpr h), eq_comm, min_eq_left h]
  · have hc : tagCenterIndex s r s = 0 := by
      unfold tagCenterIndex
      norm_num [pyInt]
    simp only [tagWindow, hc, zero_sub]
    rcases eq_or_lt_of_le hn0 with h | h
    · rw [← h]
      norm_num
    · rw [if_pos (by omega)]
  · intro hL
    simp only [tagWindow]
    rcases lt_or_le ((L : ℤ)) (tagCenterIndex s r t + n_obs segment_size r)
      with h | h
    · rw [if_pos h]
    · rw [if_neg (not_lt.mpr h)]
      omega

/-- Witness for C2's amended theorem: for `s = 0`, `r = 1`, a 3-sample
payload and the tag `t = 5`, the window's right edge clamps to 3. -/
theorem c2_window_clamping_witness :
    (tagWindow 0 1 2 3 (5:ℚ)).2 = ((3:ℕ) : ℤ) :=
  (c2_window_clamping 0 1 (5:ℚ) 2 3 (by norm_num) (by norm_num)).2.2.2
    (by norm_num [tagCenterIndex, n_obs, pyInt])

/-- C2 counterexample: for the series `start_time = 0`,
`sampling_rate = 13/5`, 10 samples, `end_time = 50/13`, and
`segment_length_seconds = 2` (so `n = 2`), the tag at exactly `end_time`
is centered at `int(int(50/13) * 13/5) = 7`, so the window's right edge is
`7 + 2 = 9 < 10 = len(samples)`: the emitted segment `[6, 7, 8, 9]` stops
one sample short of the payload's end, refuting "a tag at exactly
end_time yields a segment whose right edge is len(samples)". -/
theorem c2_counterexample :
    seriesEndTime [0, 13/5, 1, 2, 3, 4, 5, 6, 7, 8, 9, 10] = 50/13 ∧
    (tagWindow 0 (13/5) 2 10 (50/13)).2 = 9 ∧
    extract_segments_around_tags [0, 13/5, 1, 2, 3, 4, 5, 6, 7, 8, 9, 10]
        [50/13] 2 = .ok [[6, 7, 8, 9]] := by
  refine ⟨by norm_num [seriesEndTime, startTimeOf, samplingFreqOf, payloadOf],
    ?_, ?_⟩
  · norm_num [tagWindow, tagCenterIndex, n_obs, pyInt,
      (by decide : Int.fdiv 2 2 = 1)]
  · norm_num [extract_segments_around_tags, tagLoop, tagWindow,
      tagCenterIndex, n_obs, pyInt, pySlice, pySliceIdx, startTimeOf,
      samplingFreqOf, payloadOf, seriesEndTime,
      (by decide : Int.fdiv 2 2 = 1)]
    simp

/-! ## C3: guard band between close boundaries -/

/-- C3: whenever two consecutive boundaries `a < b` are spaced closer than
`2 * n_observation / sampling_rate` seconds apart, the inter-tag
segmenter's boundary-pair step computes a guarded end no larger than its
guarded start (`there_ - here_ <= 0`), so the slice between them is
omitted from the output. -/
theorem c3_close_boundaries_omitted (s r : ℚ) (n : ℤ) (payload : List ℚ)
    (a b : ℚ) (hr : 0 < r) (hab : b - a < 2 * (n : ℚ) / r) :
    emitPair s r n payload (a, b) = none := by
  have h1 : (b - a) * r < 2 * (n : ℚ) := (lt_div_iff₀ hr).mp hab
  have hle : (b - s) * r - (n : ℚ) ≤ (a - s) * r + (n : ℚ) := by
    have hsplit : (b - s) * r = (b - a) * r + (a - s) * r := by ring
    linarith
  have hm := pyInt_mono hle
  simp only [emitPair]
  rw [if_neg (by omega)]

/-- Witness for C3 at `s = 0`, `r = 1`, `n = 2`, boundaries `(0, 1)`:
spacing `1 < 2 * 2 / 1`, so no segment is emitted for the pair. -/
theorem c3_close_boundaries_omitted_witness :
    emitPair 0 1 2 [] ((0:ℚ), 1) = none :=
  c3_close_boundaries_omitted 0 1 2 [] 0 1 (by norm_num) (by norm_num)

/-! ## C4: empty tag list gives the full payload -/

/-- C4: for a non-empty series and an empty tag list, the inter-tag
segmenter appends exactly one segment to its accumulator — the series'
full payload `data[2:]` — and with an empty accumulator it returns
exactly that one segment. -/
theorem c4_empty_tags_full_payload (data : List ℚ) (segment_size : ℤ)
    (segs : List (List ℚ)) (h : data ≠ []) :
    get_segments_between_timestamps data [] segment_size segs =
      .ok (segs ++ [payloadOf data]) ∧
    get_segments_between_timestamps data [] segment_size [] =
      .ok [payloadOf data] := by
  have hlen : ¬ data.length = 0 := by simpa using h
  constructor <;> simp [get_segments_between_timestamps, hlen]

/-- Witness for C4 on the series `[0, 1, 5, 6]` (payload `[5, 6]`). -/
theorem c4_empty_tags_full_payload_witness :
    get_segments_between_timestamps [0, 1, 5, 6] [] 40 [] = .ok [[5, 6]] := by
  have h := (c4_empty_tags_full_payload [0, 1, 5, 6] 40 [] (by simp)).2
  rw [h]
  simp [payloadOf]

/-! ## C5: behavior on an empty (failed-read) series -/

/-- C5 counterexample: the tag-centered segmenter does *not* treat an
empty series as contributing zero segments — it reads `data[0]`
unconditionally, so the empty series a failed file read yields raises an
IndexError instead of being skipped. -/
theorem c5_counterexample :
    extract_segments_around_tags [] [0] 40 = .error .indexError := by
  simp [extract_segments_around_tags]

/-- C5 (amended): a failed sensor-file parse yields an empty series
without crashing, and the *inter-tag* segmenter given an empty series
returns its accumulator unchanged (zero segments for that modality); the
*tag-centered* segmenter, however, raises an IndexError on an empty
series, so the fail-soft policy does not extend to it. -/
theorem c5_empty_series_behavior (e : PyErr) (tags : List ℚ)
    (segment_size : ℤ) (segs : List (List ℚ)) :
    get_sensor_data (.error e) = [] ∧
    get_segments_between_timestamps [] tags segment_size segs = .ok segs ∧
    extract_segments_around_tags [] tags segment_size =
      .error .indexError := by
  refine ⟨rfl, ?_, ?_⟩ <;>
    simp [get_segments_between_timestamps, extract_segments_around_tags]

/-! ## C6: omission of non-positive windows -/

/-- C6 counterexample: *both* segmenters can append an empty segment
instead of omitting it.  Tag-centered: with `segment_length_seconds = 1`
the half-window count is `int((1 // 2) * r) = 0` and the in-range tag's
zero-length clamped window is appended, giving output `[[]]`.
Inter-tag: on the series `[0, 1, 7, 8, 9]` (3-sample payload) with tag
`4` and `n_observation = 0`, the boundary pair `(4, 5)` passes the guard
(`there_ - here_ = 5 - 4 = 1 > 0`) yet its slice `data[4:5]` clamps to
the empty list at the payload's bound and is appended all the same. -/
theorem c6_counterexample :
    extract_segments_around_tags [0, 1, 5, 6] [1] 1 = .ok [[]] ∧
    get_segments_between_timestamps [0, 1, 7, 8, 9] [4] 1 [] =
      .ok [[7, 8, 9], []] := by
  constructor
  · norm_num [extract_segments_around_tags, tagLoop, tagWindow,
      tagCenterIndex, n_obs, pyInt, pySlice, pySliceIdx, startTimeOf,
      samplingFreqOf, payloadOf, seriesEndTime,
      (by decide : Int.fdiv 1 2 = 0)]
  · norm_num [get_segments_between_timestamps, boundariesOf, consecPairs,
      emitPair, n_obs, pyInt, pySlice, pySliceIdx, startTimeOf,
      samplingFreqOf, payloadOf, List.filterMap_cons,
      (by decide : Int.fdiv 1 2 = 0)]

/-- C6 (amended): the inter-tag segmenter omits a boundary pair exactly
when its *pre-clamp* window length `there_ - here_` is non-positive —
silently, never as an error — but a pair passing that guard can still
append an empty segment once its indices are clamped at the array bounds,
and the tag-centered segmenter appends one clamped window for every
in-range tag unconditionally; so under the original "non-positive after
clamping" reading both segmenters can emit empty segments rather than
omitting them (see the counterexample for both). -/
theorem c6_nonpositive_window (s r : ℚ) (n : ℤ) (payload : List ℚ)
    (a b endT : ℚ) (segment_size : ℤ) (tags : List ℚ) :
    (emitPair s r n payload (a, b) = none ↔
      pyInt ((b - s) * r - (n : ℚ)) - pyInt ((a - s) * r + (n : ℚ)) ≤ 0) ∧
    (tagLoop s r endT segment_size payload tags).length =
      (tags.filter (fun t => decide (s ≤ t ∧ t ≤ endT))).length := by
  constructor
  · simp only [emitPair, ite_eq_right_iff]
    constructor
    · intro h
      by_contra hd
      push_neg at hd
      exact Option.noConfusion (h hd)
    · intro h hlt
      exact absurd hlt (by omega)
  · induction tags with
    | nil => rfl
    | cons t rest ih =>
      by_cases ht : s ≤ t ∧ t ≤ endT
      · simp [tagLoop, ht, List.filter_cons, ih]
      · simp [tagLoop, ht, List.filter_cons, ih]

/-! ## C7: the inter-tag boundary sequence -/

/-- C7: for a non-empty series and non-empty tag list, the inter-tag
segmenter's boundary sequence is exactly `[start_time]`, then the tags,
then `start_time + len(data)/sampling_rate` computed from the *raw* array
length (headers included); the output is the guarded slices over the
consecutive boundary pairs; and the final boundary exceeds the derived
`end_time` used by the tag-centered path by exactly
`2 / sampling_rate`. -/
theorem c7_boundary_sequence (data tags : List ℚ) (segment_size : ℤ)
    (segs : List (List ℚ)) (h2 : 2 ≤ data.length) (ht : tags ≠ []) :
    boundariesOf (startTimeOf data) (samplingFreqOf data) data.length tags =
      startTimeOf data ::
        (tags ++
          [startTimeOf data + (data.length : ℚ) / samplingFreqOf data]) ∧
    get_segments_between_timestamps data tags segment_size segs =
      .ok (segs ++
        (consecPairs (boundariesOf (startTimeOf data) (samplingFreqOf data)
            data.length tags)).filterMap
          (emitPair (startTimeOf data) (samplingFreqOf data)
            (n_obs segment_size (samplingFreqOf data)) (payloadOf data))) ∧
    (boundariesOf (startTimeOf data) (samplingFreqOf data) data.length
        tags).getLast? =
      some (seriesEndTime data + 2 / samplingFreqOf data) := by
  have h0 : ¬ data.length = 0 := by omega
  have h1 : ¬ data.length < 2 := by omega
  have ht0 : ¬ tags.length = 0 := by simpa using ht
  refine ⟨rfl, by simp [get_segments_between_timestamps, h0, h1, ht0], ?_⟩
  have hsplit : boundariesOf (startTimeOf data) (samplingFreqOf data)
      data.length tags =
      (startTimeOf data :: tags) ++
        [startTimeOf data + (data.length : ℚ) / samplingFreqOf data] := by
    simp [boundariesOf]
  rw [hsplit, List.getLast?_concat]
  have hlen : ((payloadOf data).length : ℚ) = (data.length : ℚ) - 2 := by
    simp only [payloadOf, List.length_drop]
    rw [Nat.cast_sub h2]
    norm_num
  simp only [seriesEndTime, hlen, Option.some.injEq]
  ring

/-- Witness for C7 on the series `[0, 1, 5, 6]` with one tag: the final
boundary `0 + 4/1` exceeds the derived end time `0 + 2/1` by `2/1`. -/
theorem c7_boundary_sequence_witness :
    (boundariesOf (startTimeOf ([0, 1, 5, 6] : List ℚ))
        (samplingFreqOf ([0, 1, 5, 6] : List ℚ))
        (List.length ([0, 1, 5, 6] : List ℚ)) [1]).getLast? =
      some (seriesEndTime ([0, 1, 5, 6] : List ℚ) +
        2 / samplingFreqOf ([0, 1, 5, 6] : List ℚ)) :=
  (c7_boundary_sequence [0, 1, 5, 6] [1] 1 [] (by norm_num) (by simp)).2.2

/-! ## C8: tag-file parsing -/

theorem readCol0_ok_iff (row : List (Option ℚ)) (v : ℚ) :
    readCol0 row = .ok v ↔ col0 row = some v := by
  match row with
  | [] => simp [readCol0, col0]
  | none :: _ => simp [readCol0, col0]
  | some w :: _ => simp [readCol0, col0]

theorem readCol0_error_iff (row : List (Option ℚ)) :
    (∃ e, readCol0 row = .error e) ↔ col0 row = none := by
  match row with
  | [] => simp [readCol0, col0]
  | none :: _ => simp [readCol0, col0]
  | some w :: _ => simp [readCol0, col0]

theorem readTagRows_all_some (rows : List (List (Option ℚ)))
    (hall : ∀ row ∈ rows, (col0 row).isSome) :
    readTagRows rows = .ok (rows.filterMap col0) := by
  induction rows with
  | nil => rfl
  | cons row rest ih =>
    obtain ⟨v, hv⟩ := Option.isSome_iff_exists.mp
      (hall row (List.mem_cons_self row rest))
    have hrest := ih (fun q hq => hall q (List.mem_cons_of_mem row hq))
    rw [readTagRows, (readCol0_ok_iff row v).mpr hv, hrest,
      List.filterMap_cons, hv]

theorem readTagRows_ne_ok_nil (rows : List (List (Option ℚ)))
    (hne : rows ≠ []) :
    readTagRows rows ≠ .ok [] := by
  match rows with
  | row :: rest =>
    rw [readTagRows]
    match hrow : readCol0 row with
    | .error e => simp
    | .ok v =>
      match hrest : readTagRows rest with
      | .error e => simp
      | .ok vs => simp

theorem readTagRows_error (rows : List (List (Option ℚ))) :
    ∀ e, readTagRows rows = .error e → ∃ row ∈ rows, col0 row = none := by
  induction rows with
  | nil =>
    intro e herr
    exact absurd herr (by rw [readTagRows]; simp)
  | cons row rest ih =>
    intro e herr
    rw [readTagRows] at herr
    match hrow : readCol0 row with
    | .error e0 =>
      exact ⟨row, List.mem_cons_self row rest,
        (readCol0_error_iff row).mp ⟨e0, hrow⟩⟩
    | .ok v =>
      rw [hrow] at herr
      match hrest : readTagRows rest with
      | .error e1 =>
        obtain ⟨q, hq, hq0⟩ := ih e1 hrest
        exact ⟨q, List.mem_cons_of_mem row hq, hq0⟩
      | .ok vs =>
        rw [hrest] at herr
        exact absurd herr (by simp)

theorem readTagRows_error_of_malformed (rows : List (List (Option ℚ)))
    (hmal : ∃ row ∈ rows, col0 row = none) :
    ∃ e, readTagRows rows = .error e := by
  induction rows with
  | nil =>
    obtain ⟨row, hrow, _⟩ := hmal
    exact absurd hrow (by simp)
  | cons row rest ih =>
    obtain ⟨q, hq, hq0⟩ := hmal
    cases hrow : readCol0 row with
    | error e =>
      refine ⟨e, ?_⟩
      simp only [readTagRows, hrow]
    | ok v =>
      rcases List.mem_cons.mp hq with hq1 | hq2
      · have hv := (readCol0_ok_iff row v).mp hrow
        rw [hq1, hv] at hq0
        exact absurd hq0 (by simp)
      · obtain ⟨e, he⟩ := ih ⟨q, hq2, hq0⟩
        refine ⟨e, ?_⟩
        simp only [readTagRows, hrow, he]

/-- C8: a tag file returns the empty sequence exactly when it has fewer
than 2 lines; otherwise the header row is skipped and the column-0 value
of every remaining row is returned in file order when all rows parse,
while the presence of a malformed row after the header makes the read
fail with a propagating error — and an error can arise in no other
way. -/
theorem c8_tag_file_parsing (lines : List (List (Option ℚ))) :
    (get_tag_timestamps lines = .ok [] ↔ lines.length < 2) ∧
    ((∀ row ∈ lines.drop 1, (col0 row).isSome) →
      get_tag_timestamps lines = .ok ((lines.drop 1).filterMap col0)) ∧
    (∀ e, get_tag_timestamps lines = .error e →
      ∃ row ∈ lines.drop 1, col0 row = none) ∧
    (2 ≤ lines.length → (∃ row ∈ lines.drop 1, col0 row = none) →
      ∃ e, get_tag_timestamps lines = .error e) := by
  by_cases hlt : lines.length < 2
  · have hget : get_tag_timestamps lines = .ok [] := by
      simp [get_tag_timestamps, hlt]
    have hdrop : lines.drop 1 = [] :=
      List.drop_eq_nil_of_le (by omega)
    refine ⟨by simp [hget, hlt], fun _ => ?_, fun e he => ?_,
      fun h2 _ => absurd h2 (by omega)⟩
    · simp [hget, hdrop]
    · rw [hget] at he
      exact absurd he (by simp)
  · have hget : get_tag_timestamps lines = readTagRows (lines.drop 1) := by
      simp [get_tag_timestamps, hlt]
    have hdrop : lines.drop 1 ≠ [] := by
      intro hnil
      have hlen2 := congrArg List.length hnil
      simp only [List.length_drop, List.length_nil] at hlen2
      omega
    refine ⟨?_, fun hall => ?_, fun e he => ?_, fun _ hmal => ?_⟩
    · rw [hget]
      simp only [hlt, iff_false]
      exact readTagRows_ne_ok_nil _ hdrop
    · rw [hget]
      exact readTagRows_all_some _ hall
    · rw [hget] at he
      exact readTagRows_error _ e he
    · rw [hget]
      exact readTagRows_error_of_malformed _ hmal

/-- Witness for C8 on a two-line file (header plus one row): the single
tag `5` is returned. -/
theorem c8_tag_file_parsing_witness :
    get_tag_timestamps [[some 1], [some (5:ℚ)]] = .ok [5] := by
  have h := (c8_tag_file_parsing [[some 1], [some (5:ℚ)]]).2.1 (by decide)
  rw [h]
  rfl

/-! ## C9: out-of-range tags are skipped, order preserved -/

theorem tagLoop_eq_filter_map (s r endT : ℚ) (segment_size : ℤ)
    (payload : List ℚ) (tags : List ℚ) :
    tagLoop s r endT segment_size payload tags =
      (tags.filter (fun t => decide (s ≤ t ∧ t ≤ endT))).map
        (fun t => pySlice payload
          (tagWindow s r segment_size payload.length t).1
          (tagWindow s r segment_size payload.length t).2) := by
  induction tags with
  | nil => rfl
  | cons t rest ih =>
    by_cases ht : s ≤ t ∧ t ≤ endT
    · simp [tagLoop, ht, List.filter_cons, ih]
    · simp [tagLoop, ht, List.filter_cons, ih]

/-- C9: for any series with at least its two header rows, the
tag-centered segmenter neither fails nor emits anything for tags outside
`[start_time, end_time]`: its output is exactly the in-range tags, in
input order, each mapped to its clamped window's slice. -/
theorem c9_out_of_range_skipped (data tags : List ℚ) (segment_size : ℤ)
    (h2 : 2 ≤ data.length) :
    extract_segments_around_tags data tags segment_size =
      .ok ((tags.filter (fun t =>
          decide (startTimeOf data ≤ t ∧ t ≤ seriesEndTime data))).map
        (fun t => pySlice (payloadOf data)
          (tagWindow (startTimeOf data) (samplingFreqOf data) segment_size
            (payloadOf data).length t).1
          (tagWindow (startTimeOf data) (samplingFreqOf data) segment_size
            (payloadOf data).length t).2)) := by
  have h1 : ¬ data.length < 2 := by omega
  simp [extract_segments_around_tags, h1, tagLoop_eq_filter_map]

/-- Witness for C9: on the series `[0, 1, 5, 6]` (time range `[0, 2]`)
with tags `[3, 1]`, the out-of-range tag `3` is skipped without error and
the in-range tag `1` yields its (here full-payload) window. -/
theorem c9_out_of_range_skipped_witness :
    extract_segments_around_tags [0, 1, 5, 6] [3, 1] 4 = .ok [[5, 6]] := by
  have h := c9_out_of_range_skipped [0, 1, 5, 6] [3, 1] 4 (by norm_num)
  rw [h]
  norm_num [startTimeOf, samplingFreqOf, payloadOf, seriesEndTime,
    tagWindow, tagCenterIndex, n_obs, pyInt, pySlice, pySliceIdx,
    (by decide : Int.fdiv 4 2 = 2)]

/-! ## C10: the verified-tags path's undefined loop variable -/

/-- C10: there is an input — one verified-tags file parsing to the
non-empty event list `[100]`, whose participant has one subfolder with a
non-empty `tags.csv` parsing to `[100]` — on which
`extract_segments_for_verified_tags` evaluates the name `tag` (in the
f-string of the `print` at source line 328) before any assignment to it,
raising an uncaught NameError instead of completing extraction. -/
theorem c10_verified_tags_name_error :
    extract_segments_for_verified_tags [([100], [[100]])] =
      .error .nameError := rfl
